import Mathlib

/-!
Shallow embedding of the CryptoTextEngine from src/js/cryptotext.js, with
theorems settling the specification claims about its timeline state machine,
reveal curve, energy sampler, glitch transform and control registry.

Machine real numbers are modelled by the rationals; the only transcendental
operation in the source, Math.sin, is taken as an uninterpreted oracle, and
Math.random draws are likewise supplied by oracles, so every definition stays
executable and every claim quantifies over all possible draws.
-/

namespace CryptoText

/-- Model of the JavaScript values that can reach the engine API: a finite
number (as a rational), the special number NaN, a string, an array of strings
(the only array shape the engine consumes), or any other value (undefined,
objects, functions, ...). -/
inductive JSValue where
  | num (q : ℚ)
  | nan
  | str (s : String)
  | arr (xs : List String)
  | undefined
deriving DecidableEq

/-- JavaScript test typeof v is number: true for finite numbers and for NaN. -/
def typeofIsNumber : JSValue → Bool
  | .num _ => true
  | .nan => true
  | _ => false

/-- Embedding of the helper at cryptotext.js lines 264-268 (the method names
of the source begin with an underscore, dropped here): clamp a number into
the unit interval. -/
def clamp01 (v : ℚ) : ℚ :=
  if v < 0 then 0 else if v > 1 then 1 else v

/-- Embedding of the helper at lines 270-273: smoothstep of the clamped
argument. -/
def smooth01 (x : ℚ) : ℚ :=
  let y := clamp01 x
  y * y * (3 - 2 * y)

/-- Embedding of the method at lines 193-202: symmetric fade-in / fade-out
curve over the phase of a line. -/
def computeRevealPhase (phase : ℚ) : ℚ :=
  if phase < 1/2 then smooth01 (phase / (1/2))
  else smooth01 ((1 - phase) / (1/2))

/-- Outcome of one call to the external getEnergy provider: the call either
throws, or returns some JavaScript value. -/
inductive ProviderResult where
  | throws
  | returns (v : JSValue)
deriving DecidableEq

/-- Embedding of the method at lines 254-262: 0 when the provider throws,
0 on a non-number or NaN return value, otherwise the returned number clamped
into the unit interval. -/
def safeEnergy : ProviderResult → ℚ
  | .throws => 0
  | .returns (.num q) => clamp01 q
  | .returns _ => 0

/-- Name of the speed control. -/
def keyTextSpeed : String := "textSpeed"

/-- Name of the glitch-intensity control. -/
def keyTextGlitch : String := "textGlitch"

/-- Mutable state of a CryptoTextEngine instance (lines 29-65): the line set,
the per-line duration, the timeline position, the running flag, the last
frame timestamp and the control table. The output element and the getEnergy
capability are external and enter the model per call. -/
structure EngineState where
  lines : List String
  duration : ℚ
  index : ℕ
  elapsed : ℚ
  running : Bool
  lastTs : Option ℚ
  controls : String → JSValue

/-- Default line set from the constructor (lines 31-38). -/
def defaultLines : List String :=
  ["ABSTRACT HACKERS RADIO // CHANNEL: 0x1F | MODE: LIQUID BLUEPRINT EQ",
   "STREAM ROUTING: WEB_RADIO ⇒ TERMINAL_UI ⇒ LIQUID_EQUALIZER ⇒ LISTENER",
   "NO AUDIO INPUT BOUND — SYNTHETIC PROBABILISTIC EQ MODE",
   "SESSION LOG: WIREFRAME GRID ACTIVE / PARTICLE FEED REROUTED TO EQ",
   "SCANNING PORTS 8000–8100 FOR LIVE STREAM ENDPOINTS…",
   "PIPELINE: GRID_OSCILLATOR × PARTICLE_FIELD × CRYPTO_TYPING_ENGINE"]

/-- Default control table (lines 50-56) before options.controls is merged
over it; a name that was never stored reads as undefined. -/
def defaultControls : String → JSValue := fun name =>
  if name = keyTextSpeed then .num 1
  else if name = keyTextGlitch then .num (3/10)
  else .undefined

/-- Object.assign of a list of key-value pairs over a base table (line 50). -/
def mergeControls (base : String → JSValue) (upd : List (String × JSValue)) :
    String → JSValue :=
  upd.foldl (fun f p => Function.update f p.1 p.2) base

/-- Constructor options. The element and getEnergy options are external
capabilities and are modelled per call, not stored. -/
structure Options where
  lines : JSValue
  duration : JSValue
  controls : List (String × JSValue)

/-- Embedding of the constructor (lines 23-69) in the successful case where
options.element is present (otherwise the constructor throws and no engine
state comes into being). -/
def construct (o : Options) : EngineState where
  lines :=
    match o.lines with
    | .arr xs => if xs ≠ [] then xs else defaultLines
    | _ => defaultLines
  duration :=
    match o.duration with
    | .num q => if 0 < q then q else 11
    | _ => 11
  index := 0
  elapsed := 0
  running := false
  lastTs := none
  controls := mergeControls defaultControls o.controls

/-- External effects a public operation can perform; the effect list of an
operation records its requestAnimationFrame calls in order. -/
inductive Effect where
  | requestFrame
deriving DecidableEq

/-- Embedding of start (lines 76-81): no-op when already running, otherwise
set the running flag, clear the last timestamp and request a frame. -/
def start (s : EngineState) : EngineState × List Effect :=
  if s.running then (s, [])
  else ({ s with running := true, lastTs := none }, [Effect.requestFrame])

/-- Embedding of stop (lines 86-88). -/
def stop (s : EngineState) : EngineState × List Effect :=
  ({ s with running := false }, [])

/-- Embedding of reset (lines 93-96). -/
def reset (s : EngineState) : EngineState :=
  { s with index := 0, elapsed := 0 }

/-- Embedding of setLines (lines 102-107): replace the lines by a copy and
reset the timeline when given a non-empty array, otherwise do nothing. -/
def setLines (s : EngineState) (v : JSValue) : EngineState :=
  match v with
  | .arr xs => if xs ≠ [] then reset { s with lines := xs } else s
  | _ => s

/-- Embedding of setControl (lines 115-118): store the value under the name
unless its typeof is not number. -/
def setControl (s : EngineState) (name : String) (v : JSValue) : EngineState :=
  if typeofIsNumber v then
    { s with controls := Function.update s.controls name v }
  else s

/-- Engine state produced by the constructor with no optional overrides. -/
def st0 : EngineState :=
  construct { lines := .undefined, duration := .undefined, controls := [] }

/-- String used in the specification scenario for an ignored control value. -/
def strFast : String := "fast"

/-- JavaScript numeric or-with-default, as used at controls.textSpeed || 1.0
(line 155) and controls.textGlitch || 0 (line 211): the number 0 and NaN are
falsy and fall back to the default. A non-numeric control value can only
arrive through raw constructor options and is outside the numeric model
(setControl never stores one); the model maps it to the default. -/
def numOr (v : JSValue) (dflt : ℚ) : ℚ :=
  match v with
  | .num q => if q = 0 then dflt else q
  | _ => dflt

/-- Effective-speed computation of the update method (lines 154-156). -/
def effectiveSpeed (s : EngineState) (energy : ℚ) : ℚ :=
  numOr (s.controls keyTextSpeed) 1 * (6/10 + 8/10 * energy)

/-- Line-wrap loop of the update method (lines 160-163): while elapsed
strictly exceeds the line duration, subtract the duration and step the index
cyclically. The source loop guard is elapsed > duration alone; the extra
0 < duration conjunct makes the recursion well-founded and is an engine
invariant (the constructor only ever stores a positive duration and nothing
else writes it) — when it fails while elapsed > duration the source loop
diverges and no result state exists. -/
def catchUp (d e : ℚ) (i n : ℕ) : ℚ × ℕ :=
  if h : 0 < d ∧ d < e then
    catchUp d (e - d) ((i + 1) % n) n
  else (e, i)
termination_by (⌊e / d⌋).toNat
decreasing_by
  simp_wf
  have hd := h.1
  have hde := h.2
  have h1 : (1:ℚ) < e / d := (one_lt_div hd).mpr hde
  have hfl : 1 ≤ ⌊e / d⌋ := by
    rw [Int.le_floor]
    exact_mod_cast h1.le
  have hsub : (e - d) / d = e / d - 1 := by
    field_simp
  rw [hsub, Int.floor_sub_one]
  omega

/-- Embedding of the update method (lines 151-164): sample the energy,
advance elapsed by dt times the effective speed, then wrap whole lines. -/
def update (s : EngineState) (pr : ProviderResult) (dt : ℚ) : EngineState :=
  let r := catchUp s.duration (s.elapsed + dt * effectiveSpeed s (safeEnergy pr))
    s.index s.lines.length
  { s with elapsed := r.1, index := r.2 }

/-- Glyph palette this.glitchGlyphs (line 59). -/
def glitchGlyphs : List Char :=
  "01ΔΣΞΩ≈∿λµΩƒ≋▌▐▒░▓█#/%\\|+<>⧉⧖⧈◊⌁⌂↯".data

/-- Separator characters that the glitch transform never substitutes
(line 232): space, no-break space, slash, backslash, pipe, colon, hyphen,
em dash, middle dot and comma. -/
def glitchSeparators : List Char :=
  "  /\\|:-—·,".data

/-- External sources of nondeterminism inside the glitch transform: Math.sin
and the up to two Math.random() draws a character position may make, indexed
by the position. The source draws lazily in position order, so every possible
draw sequence is realized by some pair of functions. -/
structure Oracles where
  sinFn : ℚ → ℚ
  randProb : ℕ → ℚ
  randIdx : ℕ → ℚ

/-- Body of the character loop of the glitch transform (lines 228-246) at
position i: separators pass through; otherwise a breathing modulation scales
the glitch intensity into a substitution probability, and a random draw
below it replaces the character by a random glyph. Math.random lies in the
half-open unit interval, so the glyph index is always in range; an
out-of-range oracle draw keeps the character. -/
def glitchChar (gi t : ℚ) (oc : Oracles) (i : ℕ) (ch : Char) : Char :=
  if ch ∈ glitchSeparators then ch
  else
    let localMod := (oc.sinFn (t * (17/10) + (i : ℚ) * (1337/100)) + 1) * (1/2)
    let prob := gi * localMod
    if oc.randProb i < prob then
      glitchGlyphs.getD (⌊oc.randIdx i * (glitchGlyphs.length : ℚ)⌋).toNat ch
    else ch

/-- Character loop of the glitch transform (lines 225-247), carrying the
position counter. -/
def glitchLoop (gi t : ℚ) (oc : Oracles) : ℕ → List Char → List Char
  | _, [] => []
  | i, ch :: rest => glitchChar gi t oc i ch :: glitchLoop gi t oc (i + 1) rest

/-- Embedding of the glitch transform (lines 210-250): combine the static
glitch control with the energy- and centre-weighted contribution, clamp, and
run the character loop over the visible text with the elapsed time as the
phase-shift clock. -/
def applyGlitch (s : EngineState) (visibleText : List Char)
    (phase energy : ℚ) (oc : Oracles) : List Char :=
  let base := numOr (s.controls keyTextGlitch) 0
  let centerWeight := 1 - |phase - 1/2| * 2
  let gi := clamp01 (base * (7/10) + energy * (6/10) * (3/10 + 7/10 * centerWeight))
  glitchLoop gi s.elapsed oc 0 visibleText

/-- JavaScript String.prototype.slice(0, endIdx) on a list of characters: a
negative end index counts from the end of the string. -/
def jsSliceTo (xs : List Char) (endIdx : ℤ) : List Char :=
  if endIdx < 0 then xs.take ((xs.length : ℤ) + endIdx).toNat
  else xs.take endIdx.toNat

/-- The current-line read this.lines[this.index] || the empty string, as on
lines 124 and 170: an out-of-range index yields undefined, which the
or-default turns into the empty string (an empty stored line is falsy and
also yields itself). -/
def currentLine (s : EngineState) : String :=
  s.lines.getD s.index (String.mk [])

/-- Embedding of getCurrentRenderedText (lines 123-131): the revealed part
of the current line with the glitch applied, returned together with the
engine state after the call — the method only reads, so the state it was
invoked on passes through each step unchanged. -/
def getCurrentRenderedText (s : EngineState) (pr : ProviderResult)
    (oc : Oracles) : List Char × EngineState :=
  let line := (currentLine s).data
  let phase := s.elapsed / s.duration
  let revealPhase := computeRevealPhase phase
  let visibleLen : ℤ := ⌊(line.length : ℚ) * revealPhase⌋
  let baseVisible := jsSliceTo line visibleLen
  let energy := safeEnergy pr
  (applyGlitch s baseVisible phase energy oc, s)

/-- Embedding of the render method (lines 169-186): the text written to the
output element for the current state. -/
def render (s : EngineState) (pr : ProviderResult) (oc : Oracles) : List Char :=
  let line := (currentLine s).data
  if line = [] then []
  else
    let phase := s.elapsed / s.duration
    let revealPhase := computeRevealPhase phase
    let visibleLen : ℤ := max 0 ⌊(line.length : ℚ) * revealPhase⌋
    let baseVisible := jsSliceTo line visibleLen
    let energy := safeEnergy pr
    applyGlitch s baseVisible phase energy oc

/-- One animation tick while running (body of the frame loop, lines 135-146,
with the frame dt already derived from the timestamps): update the timeline,
then render. The energy provider is called once in each phase, hence the two
provider results. -/
def tick (s : EngineState) (pr1 pr2 : ProviderResult) (oc : Oracles)
    (dt : ℚ) : EngineState × List Char :=
  let s1 := update s pr1 dt
  (s1, render s1 pr2 oc)

/-- Concrete engine state for boundary scenarios: two lines of ten seconds,
default controls, running. -/
def stC1 : EngineState :=
  { lines := ["A", "B"], duration := 10, index := 0, elapsed := 0,
    running := true, lastTs := none, controls := defaultControls }

/-- Concrete engine state whose textSpeed control was set to the number 0
(which setControl accepts). -/
def stC4 : EngineState :=
  { lines := ["A", "B"], duration := 10, index := 0, elapsed := 0,
    running := true, lastTs := none,
    controls := Function.update defaultControls keyTextSpeed (.num 0) }

/-- Concrete oracles for witnesses: a zero sine and zero random draws. -/
def oc0 : Oracles :=
  { sinFn := fun _ => 0, randProb := fun _ => 0, randIdx := fun _ => 0 }

/-! ## Helper lemmas -/

theorem clamp01_mem (v : ℚ) : 0 ≤ clamp01 v ∧ clamp01 v ≤ 1 := by
  unfold clamp01
  split_ifs <;> constructor <;> linarith

theorem smooth01_mem (x : ℚ) : 0 ≤ smooth01 x ∧ smooth01 x ≤ 1 := by
  obtain ⟨h0, h1⟩ := clamp01_mem x
  simp only [smooth01]
  constructor
  · nlinarith [h0, h1]
  · nlinarith [mul_nonneg (sq_nonneg (1 - clamp01 x))
      (by linarith : (0:ℚ) ≤ 1 + 2 * clamp01 x)]

theorem safeEnergy_mem (pr : ProviderResult) :
    0 ≤ safeEnergy pr ∧ safeEnergy pr ≤ 1 := by
  match pr with
  | .throws => norm_num [safeEnergy]
  | .returns (.num q) => exact clamp01_mem q
  | .returns .nan => norm_num [safeEnergy]
  | .returns (.str s) => norm_num [safeEnergy]
  | .returns (.arr xs) => norm_num [safeEnergy]
  | .returns .undefined => norm_num [safeEnergy]

theorem catchUp_of_not (d e : ℚ) (i n : ℕ) (h : ¬(0 < d ∧ d < e)) :
    catchUp d e i n = (e, i) := by
  unfold catchUp
  simp [h]

theorem catchUp_of_pos (d e : ℚ) (i n : ℕ) (h : 0 < d ∧ d < e) :
    catchUp d e i n = catchUp d (e - d) ((i + 1) % n) n := by
  conv_lhs => unfold catchUp
  simp [h]

theorem catchUp_spec (d : ℚ) :
    ∀ (e : ℚ) (i n : ℕ), 0 < d → 0 ≤ e → i < n →
    0 ≤ (catchUp d e i n).1 ∧ (catchUp d e i n).1 ≤ d ∧
      (catchUp d e i n).2 < n := by
  refine catchUp.induct d
    (fun e i n => 0 < d → 0 ≤ e → i < n →
      0 ≤ (catchUp d e i n).1 ∧ (catchUp d e i n).1 ≤ d ∧
        (catchUp d e i n).2 < n) ?_ ?_
  · intro e i n h ih hd he hn
    rw [catchUp_of_pos d e i n h]
    exact ih hd (by linarith [h.1, h.2]) (Nat.mod_lt _ (Nat.zero_lt_of_lt hn))
  · intro e i n h hd he hn
    rw [catchUp_of_not d e i n h]
    exact ⟨he, le_of_not_lt (fun hlt => h ⟨hd, hlt⟩), hn⟩

theorem update_eq (s : EngineState) (pr : ProviderResult) (dt : ℚ) :
    update s pr dt =
      { s with
        elapsed := (catchUp s.duration
          (s.elapsed + dt * effectiveSpeed s (safeEnergy pr))
          s.index s.lines.length).1,
        index := (catchUp s.duration
          (s.elapsed + dt * effectiveSpeed s (safeEnergy pr))
          s.index s.lines.length).2 } := rfl

theorem glitchLoop_length (gi t : ℚ) (oc : Oracles) :
    ∀ (j : ℕ) (xs : List Char), (glitchLoop gi t oc j xs).length = xs.length := by
  intro j xs
  induction xs generalizing j with
  | nil => rfl
  | cons ch rest ih => simp [glitchLoop, ih]

theorem glitchLoop_sep (gi t : ℚ) (oc : Oracles) :
    ∀ (xs : List Char) (j i : ℕ), xs.getD i ' ' ∈ glitchSeparators →
      (glitchLoop gi t oc j xs).getD i ' ' = xs.getD i ' ' := by
  intro xs
  induction xs with
  | nil => intro j i _; rfl
  | cons ch rest ih =>
      intro j i hsep
      match i with
      | 0 =>
          simp only [List.getD_cons_zero] at hsep ⊢
          simp [glitchLoop, glitchChar, hsep]
      | i + 1 =>
          simp only [List.getD_cons_succ] at hsep ⊢
          simp only [glitchLoop, List.getD_cons_succ]
          exact ih (j + 1) i hsep

/-! ## Claim theorems -/

/-- C2: for every phase in the unit interval the reveal curve lands in
the unit interval; it is 0 at phase 0, it is 1 at phase one-half, and it is
exactly symmetric about one-half. -/
theorem computeRevealPhase_spec :
    (∀ phase : ℚ, 0 ≤ phase → phase < 1 →
      0 ≤ computeRevealPhase phase ∧ computeRevealPhase phase ≤ 1) ∧
    computeRevealPhase 0 = 0 ∧
    computeRevealPhase (1/2) = 1 ∧
    (∀ d : ℚ, 0 ≤ d → d ≤ 1/2 →
      computeRevealPhase (1/2 - d) = computeRevealPhase (1/2 + d)) := by
  refine ⟨?_, ?_, ?_, ?_⟩
  · intro phase _ _
    unfold computeRevealPhase
    split_ifs <;> exact smooth01_mem _
  · unfold computeRevealPhase smooth01
    norm_num [clamp01]
  · unfold computeRevealPhase smooth01
    norm_num [clamp01]
  · intro d hd0 _
    rcases eq_or_lt_of_le hd0 with h | h
    · rw [← h]
      norm_num
    · unfold computeRevealPhase
      rw [if_pos (by linarith), if_neg (by linarith)]
      congr 1
      ring

/-- Witness for C2 at concrete inputs. -/
theorem computeRevealPhase_spec_witness :
    (0 ≤ computeRevealPhase (1/4) ∧ computeRevealPhase (1/4) ≤ 1) ∧
    computeRevealPhase (1/2 - 1/10) = computeRevealPhase (1/2 + 1/10) := by
  refine ⟨computeRevealPhase_spec.1 (1/4) (by norm_num) (by norm_num),
    computeRevealPhase_spec.2.2.2 (1/10) (by norm_num) (by norm_num)⟩

/-- C3: the energy sampler always lands in the unit interval and never
propagates a failure: a throwing provider and a non-number or NaN return
value both sample as 0, and a numeric return value is clamped. -/
theorem safeEnergy_spec :
    (∀ pr : ProviderResult, 0 ≤ safeEnergy pr ∧ safeEnergy pr ≤ 1) ∧
    safeEnergy .throws = 0 ∧
    (∀ v : JSValue, typeofIsNumber v = false → safeEnergy (.returns v) = 0) ∧
    safeEnergy (.returns .nan) = 0 ∧
    (∀ q : ℚ, safeEnergy (.returns (.num q)) = clamp01 q) := by
  refine ⟨safeEnergy_mem, rfl, ?_, rfl, fun q => rfl⟩
  intro v hv
  match v, hv with
  | .str s, _ => rfl
  | .arr xs, _ => rfl
  | .undefined, _ => rfl

/-- Witness for C3 at concrete inputs. -/
theorem safeEnergy_spec_witness :
    (0 ≤ safeEnergy (.returns (.num 7)) ∧ safeEnergy (.returns (.num 7)) ≤ 1) ∧
    safeEnergy (.returns .undefined) = 0 :=
  ⟨safeEnergy_spec.1 (.returns (.num 7)), safeEnergy_spec.2.2.1 .undefined rfl⟩

/-- C7: start and stop are idempotent: from any state, a second consecutive
call yields the same state and adds no observable effect, and start is a
no-op when the engine is already running. -/
theorem start_stop_idempotent :
    (∀ s : EngineState,
      (start (start s).1).1 = (start s).1 ∧
      (start s).2 ++ (start (start s).1).2 = (start s).2) ∧
    (∀ s : EngineState,
      (stop (stop s).1).1 = (stop s).1 ∧
      (stop s).2 ++ (stop (stop s).1).2 = (stop s).2) ∧
    (∀ s : EngineState, s.running = true → start s = (s, [])) := by
  refine ⟨?_, ?_, ?_⟩
  · intro s
    by_cases h : s.running
    · simp [start, h]
    · simp [start, h]
  · intro s
    simp [stop]
  · intro s h
    simp [start, h]

/-- Witness for C7: on the state reached by starting the fresh engine, a
further start is a no-op. -/
theorem start_stop_idempotent_witness :
    start (start st0).1 = ((start st0).1, []) :=
  start_stop_idempotent.2.2 (start st0).1 (by decide)

/-- C5 counterexample: setControl has no NaN test — typeof NaN is number,
so a NaN value is stored and the prior value of the control is lost. -/
theorem setControl_nan_counterexample :
    (setControl st0 keyTextSpeed .nan).controls keyTextSpeed = JSValue.nan ∧
    st0.controls keyTextSpeed = JSValue.num 1 ∧
    (setControl st0 keyTextSpeed .nan).controls keyTextSpeed ≠
      st0.controls keyTextSpeed :=
  ⟨by decide, by decide, by decide⟩

/-- C5 (amended): setControl stores the value exactly when its JavaScript
typeof is number — NaN included, since there is no NaN test — and silently
ignores any other value, retaining every control unchanged. -/
theorem setControl_spec :
    (∀ (s : EngineState) (name : String) (v : JSValue),
      typeofIsNumber v = false → setControl s name v = s) ∧
    (∀ (s : EngineState) (name : String) (v : JSValue),
      typeofIsNumber v = true →
      (setControl s name v).controls = Function.update s.controls name v) ∧
    (∀ (s : EngineState) (name : String),
      (setControl s name .nan).controls name = JSValue.nan) := by
  refine ⟨?_, ?_, ?_⟩
  · intro s name v hv
    simp [setControl, hv]
  · intro s name v hv
    simp [setControl, hv]
  · intro s name
    simp [setControl, typeofIsNumber]

/-- Witness for C5 (amended): a string value is ignored. -/
theorem setControl_spec_witness :
    setControl st0 keyTextSpeed (.str strFast) = st0 :=
  setControl_spec.1 st0 keyTextSpeed (.str strFast) rfl

/-- C8: setLines ignores an empty array and every non-array value, keeping
the whole state including index and elapsed; a non-empty array replaces the
lines and resets the timeline, leaving everything else untouched. -/
theorem setLines_spec :
    (∀ s : EngineState, setLines s (.arr []) = s) ∧
    (∀ (s : EngineState) (v : JSValue),
      (∀ xs, v ≠ .arr xs) → setLines s v = s) ∧
    (∀ (s : EngineState) (xs : List String), xs ≠ [] →
      setLines s (.arr xs) = { s with lines := xs, index := 0, elapsed := 0 }) := by
  refine ⟨?_, ?_, ?_⟩
  · intro s
    simp [setLines]
  · intro s v hv
    match v with
    | .arr xs => exact absurd rfl (hv xs)
    | .num q => rfl
    | .nan => rfl
    | .str t => rfl
    | .undefined => rfl
  · intro s xs hxs
    simp [setLines, reset, hxs]

/-- Witness for C8: a non-array argument and an empty array are both no-ops
on the fresh engine. -/
theorem setLines_spec_witness :
    setLines st0 .undefined = st0 ∧ setLines st0 (.arr []) = st0 :=
  ⟨setLines_spec.2.1 st0 .undefined (fun xs => by simp), setLines_spec.1 st0⟩

/-- C1 counterexample: when elapsed lands exactly on the line duration the
loop guard elapsed > duration is false, so the index does not advance and
elapsed stays equal to the duration — the claimed strict post-condition
elapsed < lineDuration fails. Here dt = 10 at effective speed 1 lands the
timeline exactly on the 10-second boundary. -/
theorem update_exact_boundary_counterexample :
    (update stC1 (.returns (.num (1/2))) 10).elapsed = 10 ∧
    (update stC1 (.returns (.num (1/2))) 10).index = 0 ∧
    ¬ (update stC1 (.returns (.num (1/2))) 10).elapsed < stC1.duration := by
  have h3 : catchUp (10:ℚ) 10 0 2 = (10, 0) :=
    catchUp_of_not 10 10 0 2 (by norm_num)
  have h4 : update stC1 (.returns (.num (1/2))) 10 =
      { stC1 with elapsed := 10, index := 0 } := by
    rw [update_eq]
    have harg : stC1.elapsed +
        10 * effectiveSpeed stC1 (safeEnergy (.returns (.num (1/2)))) = 10 := by
      norm_num [stC1, effectiveSpeed, numOr, defaultControls, safeEnergy, clamp01]
    rw [harg]
    have hd : stC1.duration = 10 := rfl
    have hi : stC1.index = 0 := rfl
    have hn : stC1.lines.length = 2 := rfl
    rw [hd, hi, hn, h3]
    rfl
  rw [h4]
  norm_num [stC1]


/-- C1 (amended): for non-negative dt, a state satisfying the timeline
invariants with positive duration, non-empty lines and a non-negative
numeric speed control, the update step adds dt times the effective speed to
elapsed and then wraps while elapsed strictly exceeds the duration; it
leaves 0 ≤ elapsed ≤ lineDuration and 0 ≤ index < length(lines), the lines
unchanged, and when elapsed lands exactly on the duration it stays there
with the index unchanged. -/
theorem update_bounds (s : EngineState) (pr : ProviderResult) (dt : ℚ)
    (hd : 0 < s.duration) (hl : s.lines ≠ [])
    (hdt : 0 ≤ dt) (he : 0 ≤ s.elapsed) (hi : s.index < s.lines.length)
    (hs : ∀ q, s.controls keyTextSpeed = .num q → 0 ≤ q) :
    (update s pr dt).lines = s.lines ∧
    0 ≤ (update s pr dt).elapsed ∧
    (update s pr dt).elapsed ≤ s.duration ∧
    (update s pr dt).index < s.lines.length ∧
    (s.elapsed + dt * effectiveSpeed s (safeEnergy pr) = s.duration →
      (update s pr dt).elapsed = s.duration ∧
      (update s pr dt).index = s.index) := by
  have hbase : 0 ≤ numOr (s.controls keyTextSpeed) 1 := by
    cases hv : s.controls keyTextSpeed with
    | num q =>
        by_cases hq : q = 0
        · simp [numOr, hq]
        · have := hs q hv
          simp only [numOr, if_neg hq]
          exact this
    | nan => norm_num [numOr]
    | str t => norm_num [numOr]
    | arr xs => norm_num [numOr]
    | undefined => norm_num [numOr]
  have hen0 : 0 ≤ safeEnergy pr := (safeEnergy_mem pr).1
  have hsp : 0 ≤ effectiveSpeed s (safeEnergy pr) := by
    unfold effectiveSpeed
    exact mul_nonneg hbase (by linarith)
  have he' : 0 ≤ s.elapsed + dt * effectiveSpeed s (safeEnergy pr) :=
    add_nonneg he (mul_nonneg hdt hsp)
  have hspec := catchUp_spec s.duration
    (s.elapsed + dt * effectiveSpeed s (safeEnergy pr)) s.index s.lines.length
    hd he' hi
  refine ⟨rfl, hspec.1, hspec.2.1, hspec.2.2, ?_⟩
  intro hEq
  have hcu : catchUp s.duration
      (s.elapsed + dt * effectiveSpeed s (safeEnergy pr))
      s.index s.lines.length = (s.duration, s.index) := by
    rw [hEq]
    exact catchUp_of_not _ _ _ _ (fun hcontra => lt_irrefl _ hcontra.2)
  constructor
  · show (catchUp s.duration
      (s.elapsed + dt * effectiveSpeed s (safeEnergy pr))
      s.index s.lines.length).1 = s.duration
    rw [hcu]
  · show (catchUp s.duration
      (s.elapsed + dt * effectiveSpeed s (safeEnergy pr))
      s.index s.lines.length).2 = s.index
    rw [hcu]

/-- Witness for C1 (amended) at a concrete state and dt. -/
theorem update_bounds_witness :
    (update stC1 (.returns (.num (1/2))) 4).lines = stC1.lines ∧
    0 ≤ (update stC1 (.returns (.num (1/2))) 4).elapsed ∧
    (update stC1 (.returns (.num (1/2))) 4).elapsed ≤ stC1.duration ∧
    (update stC1 (.returns (.num (1/2))) 4).index < stC1.lines.length ∧
    (stC1.elapsed + 4 * effectiveSpeed stC1 (safeEnergy (.returns (.num (1/2)))) =
        stC1.duration →
      (update stC1 (.returns (.num (1/2))) 4).elapsed = stC1.duration ∧
      (update stC1 (.returns (.num (1/2))) 4).index = stC1.index) :=
  update_bounds stC1 (.returns (.num (1/2))) 4 (by norm_num [stC1])
    (by simp [stC1]) (by norm_num) (by norm_num [stC1]) (by simp [stC1])
    (by
      intro q hq
      simp [stC1, defaultControls] at hq
      linarith [hq])

/-- C4 counterexample: with textSpeed stored as the number 0 (which
setControl accepts), the or-default at line 155 substitutes the base speed
1.0, so at zero energy the speed actually used is 0.6 rather than the
claimed 0 * (0.6 + 0.8 * 0) = 0, and the timeline moves. -/
theorem effectiveSpeed_counterexample :
    stC4.controls keyTextSpeed = JSValue.num 0 ∧
    effectiveSpeed stC4 (safeEnergy (.returns (.num 0))) = 6/10 ∧
    effectiveSpeed stC4 (safeEnergy (.returns (.num 0))) ≠
      0 * (6/10 + 8/10 * safeEnergy (.returns (.num 0))) ∧
    (update stC4 (.returns (.num 0)) 5).elapsed = 3 := by
  have hc : stC4.controls keyTextSpeed = JSValue.num 0 := by
    simp [stC4]
  have hes : effectiveSpeed stC4 (safeEnergy (.returns (.num 0))) = 6/10 := by
    rw [effectiveSpeed, hc]
    norm_num [numOr, safeEnergy, clamp01]
  refine ⟨hc, hes, by rw [hes]; norm_num [safeEnergy, clamp01], ?_⟩
  rw [update_eq]
  have harg : stC4.elapsed + 5 * effectiveSpeed stC4 (safeEnergy (.returns (.num 0))) =
      3 := by
    rw [hes]
    norm_num [stC4]
  rw [harg]
  have hd : stC4.duration = 10 := rfl
  have hi : stC4.index = 0 := rfl
  have hn : stC4.lines.length = 2 := rfl
  rw [hd, hi, hn, catchUp_of_not 10 3 0 2 (by norm_num)]

/-- C4 (amended): the effective playback speed is (textSpeed when it is a
non-zero number, else the base 1.0) times (0.6 + 0.8 * energy); in
particular the claimed formula holds whenever the stored textSpeed is a
non-zero number, and the timeline advance uses exactly this speed. -/
theorem effectiveSpeed_formula (s : EngineState) (pr : ProviderResult) (q : ℚ)
    (hq : s.controls keyTextSpeed = .num q) (hq0 : q ≠ 0) :
    effectiveSpeed s (safeEnergy pr) = q * (6/10 + 8/10 * safeEnergy pr) ∧
    ∀ dt : ℚ,
      (update s pr dt).elapsed =
        (catchUp s.duration (s.elapsed + dt * (q * (6/10 + 8/10 * safeEnergy pr)))
          s.index s.lines.length).1 ∧
      (update s pr dt).index =
        (catchUp s.duration (s.elapsed + dt * (q * (6/10 + 8/10 * safeEnergy pr)))
          s.index s.lines.length).2 := by
  have hes : effectiveSpeed s (safeEnergy pr) = q * (6/10 + 8/10 * safeEnergy pr) := by
    rw [effectiveSpeed, hq]
    simp [numOr, hq0]
  refine ⟨hes, fun dt => ?_⟩
  rw [update_eq, hes]
  exact ⟨rfl, rfl⟩

/-- Witness for C4 (amended) on the fresh engine, whose textSpeed is the
non-zero number 1. -/
theorem effectiveSpeed_formula_witness :
    effectiveSpeed st0 (safeEnergy .throws) =
      1 * (6/10 + 8/10 * safeEnergy .throws) :=
  (effectiveSpeed_formula st0 .throws 1 (by decide) (by norm_num)).1

/-- C6: the glitch transform preserves the length of its input and never
substitutes a whitespace or separator character — at every position holding
one of space, no-break space, slash, backslash, pipe, colon, hyphen,
em dash, middle dot or comma, the output carries the input character
unchanged, for every state, phase, energy and every oracle. -/
theorem applyGlitch_separators (s : EngineState) (visibleText : List Char)
    (phase energy : ℚ) (oc : Oracles) :
    (applyGlitch s visibleText phase energy oc).length = visibleText.length ∧
    ∀ i : ℕ, i < visibleText.length →
      visibleText.getD i ' ' ∈ glitchSeparators →
      (applyGlitch s visibleText phase energy oc).getD i ' ' =
        visibleText.getD i ' ' := by
  constructor
  · exact glitchLoop_length _ _ _ 0 visibleText
  · intro i _ hsep
    exact glitchLoop_sep _ _ _ visibleText 0 i hsep

/-- Witness for C6: the space in a three-character text passes through. -/
theorem applyGlitch_separators_witness :
    (applyGlitch st0 ['A', ' ', 'B'] (1/2) 1 oc0).getD 1 ' ' =
      (['A', ' ', 'B'] : List Char).getD 1 ' ' :=
  (applyGlitch_separators st0 ['A', ' ', 'B'] (1/2) 1 oc0).2 1 (by norm_num)
    (by decide)

/-- C9: getCurrentRenderedText is a pure read: it returns the current
frame's text — the revealed part of the current line with the glitch
applied — and the state after the call is the state it was invoked on,
every field included. -/
theorem getCurrentRenderedText_pure (s : EngineState) (pr : ProviderResult)
    (oc : Oracles) :
    (getCurrentRenderedText s pr oc).2 = s ∧
    (getCurrentRenderedText s pr oc).1 =
      applyGlitch s
        (jsSliceTo (currentLine s).data
          ⌊((currentLine s).data.length : ℚ) *
            computeRevealPhase (s.elapsed / s.duration)⌋)
        (s.elapsed / s.duration) (safeEnergy pr) oc :=
  ⟨rfl, rfl⟩

/-- C10: the line set is non-empty after construction and stays non-empty
under every public operation, so the current-line lookup is the genuine
list entry whenever the index invariant holds. -/
theorem lines_nonempty_invariant :
    (∀ o : Options, (construct o).lines ≠ []) ∧
    (∀ s : EngineState, s.lines ≠ [] → (start s).1.lines ≠ []) ∧
    (∀ s : EngineState, s.lines ≠ [] → (stop s).1.lines ≠ []) ∧
    (∀ s : EngineState, s.lines ≠ [] → (reset s).lines ≠ []) ∧
    (∀ (s : EngineState) (v : JSValue), s.lines ≠ [] → (setLines s v).lines ≠ []) ∧
    (∀ (s : EngineState) (name : String) (v : JSValue),
      s.lines ≠ [] → (setControl s name v).lines ≠ []) ∧
    (∀ (s : EngineState) (pr1 pr2 : ProviderResult) (oc : Oracles) (dt : ℚ),
      s.lines ≠ [] → (tick s pr1 pr2 oc dt).1.lines ≠ []) ∧
    (∀ (s : EngineState) (h : s.index < s.lines.length),
      currentLine s = s.lines.get ⟨s.index, h⟩) := by
  refine ⟨?_, ?_, ?_, ?_, ?_, ?_, ?_, ?_⟩
  · intro o
    show (match o.lines with
      | .arr xs => if xs ≠ [] then xs else defaultLines
      | _ => defaultLines) ≠ []
    match o.lines with
    | .arr xs =>
        by_cases hx : xs = []
        · simp [hx, defaultLines]
        · simp [hx]
    | .num q => simp [defaultLines]
    | .nan => simp [defaultLines]
    | .str t => simp [defaultLines]
    | .undefined => simp [defaultLines]
  · intro s h
    by_cases hr : s.running <;> simp [start, hr, h]
  · intro s h
    simpa [stop] using h
  · intro s h
    simpa [reset] using h
  · intro s v h
    match v with
    | .arr xs =>
        by_cases hx : xs = []
        · simpa [setLines, hx] using h
        · simp [setLines, hx, reset]
    | .num q => simpa [setLines] using h
    | .nan => simpa [setLines] using h
    | .str t => simpa [setLines] using h
    | .undefined => simpa [setLines] using h
  · intro s name v h
    by_cases hv : typeofIsNumber v <;> simpa [setControl, hv] using h
  · intro s pr1 pr2 oc dt h
    simpa [tick, update_eq] using h
  · intro s h
    rw [currentLine, List.getD_eq_getElem s.lines _ h, List.get_eq_getElem]

/-- Witness for C10: the fresh engine has non-empty lines and keeps them
across an ignored setLines call. -/
theorem lines_nonempty_invariant_witness :
    (setLines st0 (.arr [])).lines ≠ [] :=
  lines_nonempty_invariant.2.2.2.2.1 st0 (.arr []) (by decide)

end CryptoText
